import Mathlib

/-!
Verification of the service scheduler core against its specification: the
calendar generator (src/Utils.js), the constrained rotation scheduler
(src/Email.js, autoPopulateSchedule) and the conflict classifier
(src/Email.js, highlightConflicts), shallowly embedded as executable Lean
definitions. JavaScript integer `%` is the truncated remainder, embedded as
Int.tmod; `Math.floor(a / b)` on integers is Int.fdiv. Sheet access, UI and
notification code around the core is out of scope, as in the spec.
-/

/-- Gregorian leap year, as realised by the JavaScript Date object. -/
def isLeap (y : Int) : Bool :=
  y.emod 4 == 0 && (!(y.emod 100 == 0) || y.emod 400 == 0)

/-- Day count of the 1-based month m of year y. -/
def daysInMonth (y m : Int) : Int :=
  if m = 2 then (if isLeap y then 29 else 28)
  else if m = 4 || m = 6 || m = 9 || m = 11 then 30
  else 31

/-- Civil day number of y-m-d: days since 1970-01-01 in the proleptic
Gregorian calendar, the day index underlying JavaScript Date arithmetic
for local midnight; the standard days-from-civil computation. -/
def dayNumber (y m d : Int) : Int :=
  let yy := if m ≤ 2 then y - 1 else y
  let era := yy.fdiv 400
  let yoe := yy - era * 400
  let mp := if 2 < m then m - 3 else m + 9
  let doy := (153 * mp + 2).fdiv 5 + d - 1
  let doe := yoe * 365 + yoe.fdiv 4 - yoe.fdiv 100 + doy
  era * 146097 + doe - 719468

/-- JavaScript Date.getDay of a civil day number: 0 means Sunday
(1970-01-01, day number 0, was a Thursday, value 4). -/
def dayOfWeek (z : Int) : Int :=
  (z + 4).emod 7

/-- src/Utils.js getNextQuarterRange. The quarter start month read from
Config!A2 is modelled as `raw` (none = empty or non-numeric cell, parseInt
giving NaN); today enters only through its calendar year and 1-based month
(getFullYear, getMonth() + 1), so those are the parameters. The result is
((startYear, startMonth, startDay), (endYear, endMonth, endDay)); the
source builds the end date as `new Date(endYear, endMonth, 0)`, which is
the last day of the 1-based month endMonth of endYear. -/
def getNextQuarterRange (raw : Option Int) (todayYear todayMonth : Int) :
    (Int × Int × Int) × (Int × Int × Int) :=
  let q1Start : Int := match raw with
    | some v => if v < 1 || 12 < v then 1 else v
    | none => 1
  let offset := (todayMonth - q1Start + 12).tmod 12
  let currentQ := offset.fdiv 3
  let nextQ := (currentQ + 1).tmod 4
  let startMonthRaw := (q1Start - 1) + nextQ * 3
  let startYear := todayYear + startMonthRaw.fdiv 12
  let startMonth := startMonthRaw.tmod 12 + 1
  let endMonthRaw := startMonthRaw + 2
  let endYear := todayYear + endMonthRaw.fdiv 12
  let endMonth := endMonthRaw.tmod 12 + 1
  ((startYear, startMonth, 1), (endYear, endMonth, daysInMonth endYear endMonth))

/-- The while loop of src/Utils.js getSundaysForNextQuarter: first day on
or after z falling on a Sunday. The loop advances at most 6 days, so fuel
7 realises it exactly. -/
def firstSundayFrom : Nat → Int → Int
  | 0, z => z
  | fuel + 1, z => if dayOfWeek z = 0 then z else firstSundayFrom fuel (z + 1)

/-- The 7-day stepping loop of getSundaysForNextQuarter, collecting day
numbers up to endZ inclusive. The fuel bounds the iteration count; a
three-month range holds at most 14 Sundays, so the fuel used below is
never the binding constraint. -/
def collectSundays : Nat → Int → Int → List Int
  | 0, _, _ => []
  | fuel + 1, z, endZ => if z ≤ endZ then z :: collectSundays fuel (z + 7) endZ else []

/-- src/Utils.js getSundaysForNextQuarter, over civil day numbers. -/
def getSundaysForNextQuarter (raw : Option Int) (todayYear todayMonth : Int) : List Int :=
  let qr := getNextQuarterRange raw todayYear todayMonth
  let s := dayNumber qr.1.1 qr.1.2.1 qr.1.2.2
  let e := dayNumber qr.2.1 qr.2.2.1 qr.2.2.2
  collectSundays 200 (firstSundayFrom 7 s) e

/-- Claim C1, failing-input evaluation: with the anchor unset (defaulting
to January) and today in November 2025, the period containing today is
October to December 2025, so the period immediately following it is
January to March 2026; the code instead returns January 1 to March 31 of
2025 -- its quarter arithmetic reuses the current year when the next
quarter wraps past the anchor year -- a month-aligned range that ends
before today, and every service date generated from it lies in the past
rather than strictly in the future. -/
theorem c1_next_quarter_not_future :
    getNextQuarterRange none 2025 11 = ((2025, 1, 1), (2025, 3, 31)) ∧
    dayNumber 2025 3 31 < dayNumber 2025 11 1 ∧
    (getSundaysForNextQuarter none 2025 11).all
      (fun z => decide (z < dayNumber 2025 11 1)) = true := by
  decide

/-- A cell value of the Blackout Dates sheet, as JavaScript sees it:
a boolean checkbox, a string, a number, or an empty cell. -/
inductive CellVal where
  | bool (b : Bool)
  | str (s : String)
  | num (n : Int)
  | empty
deriving DecidableEq

/-- The blackout test of src/Email.js autoPopulateSchedule (lines 849-856):
a volunteer is blacked out on a date exactly when both lookup maps have the
key (hasOwnProperty on volunteerRowMap and blackoutDateMap) and the sheet
cell at that row and column is strictly the boolean true (`=== true`). -/
def isBlackoutCell (blackoutData : List (List CellVal))
    (volunteerRowMap : String → Option Nat) (blackoutDateMap : String → Option Nat)
    (volName dateStr : String) : Bool :=
  match volunteerRowMap volName, blackoutDateMap dateStr with
  | some rowIdx, some colIdx =>
    match (blackoutData.getD rowIdx []).getD colIdx CellVal.empty with
    | CellVal.bool true => true
    | _ => false
  | _, _ => false

/-- A role as the scheduler consumes it: its eligible volunteers in sheet
order (roleVolunteers[role]) and whether it is a floating role. -/
structure RoleSpec where
  volunteers : List String
  isFloating : Bool

/-- The four sequential candidate checks of the scan loop (lines 833-859),
collapsed into one conjunction: the role must be floating or the candidate
not yet assigned today, the candidate must not have served on the previous
date, the spouse (if the couples map has one) must not be assigned today,
and the candidate must not be blacked out on this date. -/
def passes (isFloating : Bool) (assignedForDate : List String)
    (servedLastSunday : List String) (couplesMap : String → Option String)
    (isBlackout : String → Bool) (volName : String) : Bool :=
  (isFloating || !(assignedForDate.contains volName)) &&
  !(servedLastSunday.contains volName) &&
  (match couplesMap volName with
   | some spouse => !(assignedForDate.contains spouse)
   | none => true) &&
  !(isBlackout volName)

/-- Start index of the candidate scan (line 826):
`(lastAssignedIndex[role] + 1) % volunteers.length`. The pointer is always
-1 or an index of the list in any reachable state, so ptr + 1 is never
negative and the JavaScript truncated remainder agrees with Int.emod. -/
def startIdx (n : Nat) (ptr : Int) : Nat :=
  ((ptr + 1) % (n : Int)).toNat

/-- The scan loop (lines 829-864): k counts candidates already examined,
the fuel is the number still allowed (volunteers.length at the top call),
and the examined index is (startIndex + k) % volunteers.length. Returns
the first candidate passing every check together with its index. -/
def scanFrom (volunteers : List String) (startIndex : Nat) (p : String → Bool) :
    Nat → Nat → Option (String × Nat)
  | _, 0 => none
  | k, fuel + 1 =>
    let index := (startIndex + k) % volunteers.length
    let volName := volunteers.getD index ""
    if p volName then some (volName, index)
    else scanFrom volunteers startIndex p (k + 1) fuel

/-- One role of one date (lines 824-864): no scan at all when the eligible
list is empty, otherwise at most volunteers.length candidates are examined
starting just after the rotation pointer. -/
def assignRole (volunteers : List String) (p : String → Bool) (ptr : Int) :
    Option (String × Nat) :=
  if volunteers.length = 0 then none
  else scanFrom volunteers (startIdx volunteers.length ptr) p 0 volunteers.length

/-- The role block including its pointer update (lines 824-874): on success
the pointer moves to the assigned index (line 861), on failure the cell
stays empty and the pointer keeps its value. -/
def roleStep (volunteers : List String) (p : String → Bool) (ptr : Int) :
    Option String × Int :=
  match assignRole volunteers p ptr with
  | some (name, index) => (some name, (index : Int))
  | none => (none, ptr)

/-- The per-date loop over roles in header order (lines 819-874), threading
the assigned-today list: every assigned candidate, floating or not, is
appended to it (line 868). Returns the row of cells, the updated pointers
and the final assigned-today list. -/
def dateStepAux (couplesMap : String → Option String) (isBlackout : String → Bool)
    (servedLastSunday : List String) :
    List (RoleSpec × Int) → List String →
      List (Option String) × List Int × List String
  | [], assignedForDate => ([], [], assignedForDate)
  | rp :: rest, assignedForDate =>
    let step := roleStep rp.1.volunteers
      (passes rp.1.isFloating assignedForDate servedLastSunday couplesMap isBlackout) rp.2
    let assignedForDate2 := match step.1 with
      | some name => assignedForDate ++ [name]
      | none => assignedForDate
    let tail := dateStepAux couplesMap isBlackout servedLastSunday rest assignedForDate2
    (step.1 :: tail.1, step.2 :: tail.2.1, tail.2.2)

/-- The date loop (lines 812-881): each date is processed with the
servedLastSunday list of the previous date, and afterwards servedLastSunday
is rebuilt from scratch out of the assigned-today list of this date (lines
876-880), replacing, not extending, the previous value. Dates are carried
as their formatted strings, the form in which the source passes them to the
blackout lookup. -/
def scheduleRun (couplesMap : String → Option String) (roles : List RoleSpec)
    (isBlackout : String → String → Bool) :
    List String → List Int → List String → List (List (Option String))
  | [], _, _ => []
  | d :: ds, ptrs, servedLastSunday =>
    let step := dateStepAux couplesMap (isBlackout d) servedLastSunday
      (roles.zip ptrs) []
    step.1 :: scheduleRun couplesMap roles isBlackout ds step.2.1 step.2.2

/-- The whole assignment phase of autoPopulateSchedule: every rotation
pointer starts at -1 (lines 792-796) and the served-last-Sunday list starts
empty (line 804); nothing from a prior period is read. -/
def autoPopulateCore (roles : List RoleSpec) (couplesMap : String → Option String)
    (isBlackout : String → String → Bool) (dates : List String) :
    List (List (Option String)) :=
  scheduleRun couplesMap roles isBlackout dates (roles.map (fun _ => (-1 : Int))) []

/-- The volunteers actually assigned in one output row, in role order. -/
def assignedNames (row : List (Option String)) : List String :=
  row.filterMap id

/-- The index sequence the scan loop examines: s, s+1, ..., wrapping
modulo n, n entries in all. -/
def scanOrder (n s : Nat) : List Nat :=
  (List.range n).map (fun k => (s + k) % n)

theorem scanFrom_eq_find (volunteers : List String) (s : Nat) (p : String → Bool) :
    ∀ (fuel k : Nat),
      scanFrom volunteers s p k fuel =
        (((List.range fuel).map (fun j => (s + (k + j)) % volunteers.length)).find?
          (fun i => p (volunteers.getD i ""))).map
          (fun i => (volunteers.getD i "", i)) := by
  intro fuel
  induction fuel with
  | zero => intro k; simp [scanFrom]
  | succ fuel ih =>
    intro k
    rw [List.range_succ_eq_map, List.map_cons, List.map_map]
    by_cases h : p (volunteers.getD ((s + (k + 0)) % volunteers.length) "") = true
    · rw [List.find?_cons_of_pos _ (by simpa using h)]
      simp only [scanFrom]
      rw [if_pos (by simpa using h)]
      simp
    · rw [List.find?_cons_of_neg _ (by simpa using h)]
      simp only [scanFrom]
      rw [if_neg (by simpa using h), ih (k + 1)]
      have hfun : ((fun j => (s + (k + j)) % volunteers.length) ∘ Nat.succ) =
          (fun j => (s + (k + 1 + j)) % volunteers.length) := by
        funext j
        simp only [Function.comp]
        congr 1
        omega
      rw [hfun]

theorem assignRole_eq_find (vols : List String) (p : String → Bool) (ptr : Int)
    (h : vols ≠ []) :
    assignRole vols p ptr =
      ((scanOrder vols.length (startIdx vols.length ptr)).find?
        (fun i => p (vols.getD i ""))).map (fun i => (vols.getD i "", i)) := by
  unfold assignRole
  rw [if_neg (by simpa [List.length_eq_zero] using h)]
  rw [scanFrom_eq_find]
  have hfun : (fun j => (startIdx vols.length ptr + (0 + j)) % vols.length) =
      (fun k => (startIdx vols.length ptr + k) % vols.length) := by
    funext j
    rw [Nat.zero_add]
  rw [scanOrder, hfun]

/-- Claim C2: for a role with a non-empty eligible list, the scheduler
examines the candidates in the wrapped order that starts at index
(rotationPointer + 1) mod N, at most N of them; the first candidate the
checks accept is assigned and becomes the new pointer value, and when the
scan rejects every candidate the pointer keeps its old value -- rejected
candidates never move it. -/
theorem c2_rotation_scan (vols : List String) (p : String → Bool) (ptr : Int)
    (h : vols ≠ []) :
    roleStep vols p ptr =
      match (scanOrder vols.length (startIdx vols.length ptr)).find?
          (fun i => p (vols.getD i "")) with
      | some i => (some (vols.getD i ""), (i : Int))
      | none => (none, ptr) := by
  unfold roleStep
  rw [assignRole_eq_find vols p ptr h]
  cases hf : (scanOrder vols.length (startIdx vols.length ptr)).find?
      (fun i => p (vols.getD i "")) with
  | none => simp
  | some i => simp

/-- Witness for C2 at a concrete input: three volunteers, pointer at 0, so
the scan starts at index 1; the predicate rejects B at index 1 and accepts
C at index 2, which becomes the new pointer. -/
theorem c2_rotation_scan_witness :
    roleStep ["A", "B", "C"] (fun n => n == "C") 0 = (some "C", 2) :=
  (c2_rotation_scan ["A", "B", "C"] (fun n => n == "C") 0 (by decide)).trans (by decide)

/-- Claim C3, failing-input evaluation: a single volunteer A, a floating
role followed by a non-floating role in header order, no couples, no
blackouts, one date. A receives the floating role and enters the
assigned-today list, and the non-floating role is then left empty: the
assignment of a floating role DID block the later non-floating assignment,
because the duplicate check (src/Email.js line 834) tests membership in
the whole assigned-today list even though its own comment says it skips a
volunteer already assigned a NON-floating role. Under the claim the second
cell would hold A. -/
theorem c3_floating_blocks_nonfloating :
    autoPopulateCore [⟨["A"], true⟩, ⟨["A"], false⟩] (fun _ => none)
      (fun _ _ => false) ["d1"] = [[some "A", none]] := by
  decide

theorem not_mem_of_contains_false {l : List String} {a : String}
    (h : l.contains a = false) : ¬ a ∈ l := by
  intro hm
  have hc : l.contains a = true := List.elem_iff.mpr hm
  rw [h] at hc
  exact Bool.noConfusion hc

theorem assignRole_some_passes (vols : List String) (p : String → Bool) (ptr : Int)
    (name : String) (i : Nat) (h : assignRole vols p ptr = some (name, i)) :
    p name = true := by
  by_cases hv : vols = []
  · rw [hv] at h
    simp [assignRole] at h
  · rw [assignRole_eq_find vols p ptr hv] at h
    obtain ⟨j, hj, hg⟩ := Option.map_eq_some'.mp h
    have hp := List.find?_some hj
    cases hg
    exact hp

theorem roleStep_fst_some_passes (vols : List String) (p : String → Bool) (ptr : Int)
    (name : String) (h : (roleStep vols p ptr).1 = some name) :
    p name = true := by
  unfold roleStep at h
  cases ha : assignRole vols p ptr with
  | none => rw [ha] at h; simp at h
  | some pair =>
    obtain ⟨n2, i2⟩ := pair
    rw [ha] at h
    simp at h
    subst h
    exact assignRole_some_passes vols p ptr n2 i2 ha

theorem passes_not_served (isF : Bool) (acc served : List String)
    (cm : String → Option String) (bl : String → Bool) (v : String)
    (h : passes isF acc served cm bl v = true) : served.contains v = false := by
  unfold passes at h
  simp only [Bool.and_eq_true] at h
  simpa using h.1.1.2

theorem passes_spouse_free (isF : Bool) (acc served : List String)
    (cm : String → Option String) (bl : String → Bool) (v sp : String)
    (h : passes isF acc served cm bl v = true) (hsp : cm v = some sp) :
    acc.contains sp = false := by
  unfold passes at h
  simp only [Bool.and_eq_true] at h
  have h3 := h.1.2
  rw [hsp] at h3
  simpa using h3

theorem dateStepAux_final (cm : String → Option String) (bl : String → Bool)
    (served : List String) :
    ∀ (pairs : List (RoleSpec × Int)) (acc : List String),
      (dateStepAux cm bl served pairs acc).2.2 =
        acc ++ assignedNames (dateStepAux cm bl served pairs acc).1 := by
  intro pairs
  induction pairs with
  | nil => intro acc; simp [dateStepAux, assignedNames]
  | cons rp rest ih =>
    intro acc
    simp only [dateStepAux]
    cases hs : (roleStep rp.1.volunteers
        (passes rp.1.isFloating acc served cm bl) rp.2).1 with
    | none =>
      simp only [hs]
      rw [ih acc]
      simp [assignedNames]
    | some name =>
      simp only [hs]
      rw [ih (acc ++ [name])]
      simp [assignedNames]

theorem dateStepAux_not_served (cm : String → Option String) (bl : String → Bool)
    (served : List String) :
    ∀ (pairs : List (RoleSpec × Int)) (acc : List String) (name : String),
      name ∈ assignedNames (dateStepAux cm bl served pairs acc).1 →
      served.contains name = false := by
  intro pairs
  induction pairs with
  | nil => intro acc name h; simp [dateStepAux, assignedNames] at h
  | cons rp rest ih =>
    intro acc name h
    simp only [dateStepAux] at h
    cases hs : (roleStep rp.1.volunteers
        (passes rp.1.isFloating acc served cm bl) rp.2).1 with
    | none =>
      rw [hs] at h
      simp only [assignedNames, List.filterMap_cons, id_eq] at h
      exact ih acc name (by simpa [assignedNames] using h)
    | some n0 =>
      rw [hs] at h
      simp only [assignedNames, List.filterMap_cons, id_eq] at h
      rcases List.mem_cons.mp h with h1 | h2
      · subst h1
        exact passes_not_served _ _ _ _ _ _ (roleStep_fst_some_passes _ _ _ _ hs)
      · exact ih (acc ++ [n0]) name h2

theorem scheduleRun_cons (cm : String → Option String) (roles : List RoleSpec)
    (bl : String → String → Bool) (d : String) (ds : List String)
    (ptrs : List Int) (served : List String) :
    scheduleRun cm roles bl (d :: ds) ptrs served =
      (dateStepAux cm (bl d) served (roles.zip ptrs) []).1 ::
        scheduleRun cm roles bl ds
          ((dateStepAux cm (bl d) served (roles.zip ptrs) []).2.1)
          (assignedNames (dateStepAux cm (bl d) served (roles.zip ptrs) []).1) := by
  simp only [scheduleRun]
  rw [dateStepAux_final cm (bl d) served (roles.zip ptrs) []]
  simp

theorem scheduleRun_adjacent (cm : String → Option String) (roles : List RoleSpec)
    (bl : String → String → Bool) :
    ∀ (dates : List String) (ptrs : List Int) (served : List String) (r : Nat)
      (name : String),
      name ∈ assignedNames ((scheduleRun cm roles bl dates ptrs served).getD (r + 1) []) →
      ¬ name ∈ assignedNames ((scheduleRun cm roles bl dates ptrs served).getD r []) := by
  intro dates
  induction dates with
  | nil => intro ptrs served r name h; simp [scheduleRun, assignedNames] at h
  | cons d ds ih =>
    intro ptrs served r name h hmem
    rw [scheduleRun_cons] at h hmem
    cases r with
    | zero =>
      rw [List.getD_cons_succ] at h
      rw [List.getD_cons_zero] at hmem
      cases ds with
      | nil => simp [scheduleRun, assignedNames] at h
      | cons d2 ds2 =>
        rw [scheduleRun_cons, List.getD_cons_zero] at h
        have hc := dateStepAux_not_served cm (bl d2)
          (assignedNames (dateStepAux cm (bl d) served (roles.zip ptrs) []).1)
          (roles.zip ((dateStepAux cm (bl d) served (roles.zip ptrs) []).2.1)) [] name h
        exact not_mem_of_contains_false hc hmem
    | succ r =>
      rw [List.getD_cons_succ] at h hmem
      exact ih _ _ r name h hmem

/-- Claim C4: first, a volunteer assigned any role, floating or not, on one
date never holds any role on the immediately following date; second, the
run on a first date followed by further dates equals the row of that date
followed by the run on the remaining dates whose served-last-date input is
exactly the assigned set of the first row -- it replaces, rather than
accumulates with, whatever the earlier served set was. -/
theorem c4_consecutive_exclusion :
    (∀ (cm : String → Option String) (roles : List RoleSpec)
        (bl : String → String → Bool) (dates : List String) (ptrs : List Int)
        (served : List String) (r : Nat) (name : String),
      name ∈ assignedNames ((scheduleRun cm roles bl dates ptrs served).getD (r + 1) []) →
      ¬ name ∈ assignedNames ((scheduleRun cm roles bl dates ptrs served).getD r [])) ∧
    (∀ (cm : String → Option String) (roles : List RoleSpec)
        (bl : String → String → Bool) (d : String) (dates : List String)
        (ptrs : List Int) (served : List String),
      scheduleRun cm roles bl (d :: dates) ptrs served =
        (dateStepAux cm (bl d) served (roles.zip ptrs) []).1 ::
          scheduleRun cm roles bl dates
            ((dateStepAux cm (bl d) served (roles.zip ptrs) []).2.1)
            (assignedNames (dateStepAux cm (bl d) served (roles.zip ptrs) []).1)) :=
  ⟨fun cm roles bl => scheduleRun_adjacent cm roles bl, scheduleRun_cons⟩

/-- Witness for C4 at a concrete input: one role with eligible list
[A, B] over two dates assigns A then B; B, assigned on the second date, is
indeed absent from the first date, instantiating the adjacency statement
with its membership hypothesis discharged by evaluation. -/
theorem c4_consecutive_exclusion_witness :
    ¬ "B" ∈ assignedNames ((scheduleRun (fun _ => none) [⟨["A", "B"], false⟩]
      (fun _ _ => false) ["d1", "d2"] [-1] []).getD 0 []) :=
  c4_consecutive_exclusion.1 (fun _ => none) [⟨["A", "B"], false⟩]
    (fun _ _ => false) ["d1", "d2"] [-1] [] 0 "B" (by decide)

/-- No two partners of the couples map are both present in the list. -/
def PairFree (cm : String → Option String) (l : List String) : Prop :=
  ∀ a b, a ∈ l → cm a = some b → ¬ b ∈ l

theorem dateStepAux_pairFree (cm : String → Option String) (bl : String → Bool)
    (served : List String)
    (hsym : ∀ a b, cm a = some b → cm b = some a ∧ b ≠ a) :
    ∀ (pairs : List (RoleSpec × Int)) (acc : List String),
      PairFree cm acc → PairFree cm (dateStepAux cm bl served pairs acc).2.2 := by
  intro pairs
  induction pairs with
  | nil => intro acc hp; simpa [dateStepAux] using hp
  | cons rp rest ih =>
    intro acc hp
    simp only [dateStepAux]
    cases hs : (roleStep rp.1.volunteers
        (passes rp.1.isFloating acc served cm bl) rp.2).1 with
    | none =>
      simp only [hs]
      exact ih acc hp
    | some n0 =>
      simp only [hs]
      apply ih (acc ++ [n0])
      have hpass := roleStep_fst_some_passes _ _ _ _ hs
      intro a b ha hab hb
      rw [List.mem_append, List.mem_singleton] at ha hb
      rcases ha with ha | ha
      · rcases hb with hb | hb
        · exact hp a b ha hab hb
        · have hsa : cm n0 = some a := hb ▸ (hsym a b hab).1
          have hfree := passes_spouse_free _ _ _ _ _ _ _ hpass hsa
          exact not_mem_of_contains_false hfree ha
      · have hab2 : cm n0 = some b := ha ▸ hab
        have hfree := passes_spouse_free _ _ _ _ _ _ _ hpass hab2
        rcases hb with hb | hb
        · exact not_mem_of_contains_false hfree hb
        · exact (hsym a b hab).2 (hb.trans ha.symm)

theorem scheduleRun_row_pairFree (cm : String → Option String) (roles : List RoleSpec)
    (bl : String → String → Bool)
    (hsym : ∀ a b, cm a = some b → cm b = some a ∧ b ≠ a) :
    ∀ (dates : List String) (ptrs : List Int) (served : List String)
      (row : List (Option String)),
      row ∈ scheduleRun cm roles bl dates ptrs served →
      PairFree cm (assignedNames row) := by
  intro dates
  induction dates with
  | nil => intro ptrs served row h; simp [scheduleRun] at h
  | cons d ds ih =>
    intro ptrs served row h
    rw [scheduleRun_cons] at h
    rcases List.mem_cons.mp h with h1 | h2
    · subst h1
      have hstep := dateStepAux_pairFree cm (bl d) served hsym (roles.zip ptrs) []
        (by intro a b ha; simp at ha)
      rw [dateStepAux_final] at hstep
      simpa using hstep
    · exact ih _ _ row h2

/-- Claim C5: in every output row of the scheduler, an assigned volunteer
whose couples-map partner exists never shares the date with that partner.
The couples map is assumed symmetric and irreflexive, which is how the
Couples sheet of husband-wife pairs populates it (getCouplesMap writes
both directions) and how the data model defines a pairing. -/
theorem c5_partner_not_same_day (cm : String → Option String) (roles : List RoleSpec)
    (bl : String → String → Bool) (dates : List String) (ptrs : List Int)
    (served : List String)
    (hsym : ∀ a b, cm a = some b → cm b = some a ∧ b ≠ a) :
    ∀ row ∈ scheduleRun cm roles bl dates ptrs served, ∀ v w, cm v = some w →
      v ∈ assignedNames row → ¬ w ∈ assignedNames row := by
  intro row hrow v w hvw hv
  exact scheduleRun_row_pairFree cm roles bl hsym dates ptrs served row hrow v w hv hvw

/-- Witness for C5 at a concrete input: A and B are partners; A takes the
first role, so B is skipped for the second role and C takes it; B is
absent from the whole date. -/
theorem c5_partner_not_same_day_witness :
    ¬ "B" ∈ assignedNames ((scheduleRun
      (fun n => if n = "A" then some "B" else if n = "B" then some "A" else none)
      [⟨["A"], false⟩, ⟨["B", "C"], false⟩] (fun _ _ => false)
      ["d1"] [-1, -1] []).getD 0 []) :=
  c5_partner_not_same_day
    (fun n => if n = "A" then some "B" else if n = "B" then some "A" else none)
    [⟨["A"], false⟩, ⟨["B", "C"], false⟩] (fun _ _ => false) ["d1"] [-1, -1] []
    (by
      intro a b hab
      dsimp only at hab
      split_ifs at hab with h1 h2
      · cases hab
        subst h1
        exact ⟨by decide, by decide⟩
      · cases hab
        subst h2
        exact ⟨by decide, by decide⟩)
    ((scheduleRun
      (fun n => if n = "A" then some "B" else if n = "B" then some "A" else none)
      [⟨["A"], false⟩, ⟨["B", "C"], false⟩] (fun _ _ => false)
      ["d1"] [-1, -1] []).getD 0 []) (by decide) "A" "B" (by decide) (by decide)

theorem startIdx_lt (n : Nat) (ptr : Int) (hn : 0 < n) : startIdx n ptr < n := by
  unfold startIdx
  have h1 : (0 : Int) < (n : Int) := by exact_mod_cast hn
  have h3 : 0 ≤ (ptr + 1) % (n : Int) := Int.emod_nonneg (ptr + 1) (by omega)
  exact (Int.toNat_lt h3).mpr (Int.emod_lt_of_pos (ptr + 1) h1)

theorem mem_scanOrder (n s i : Nat) (hs : s < n) (hi : i < n) : i ∈ scanOrder n s := by
  unfold scanOrder
  rw [List.mem_map]
  refine ⟨(n + i - s) % n, ?_, ?_⟩
  · rw [List.mem_range]
    exact Nat.mod_lt _ (by omega)
  · rw [Nat.add_mod_mod]
    have h2 : s + (n + i - s) = i + n := by omega
    rw [h2, Nat.add_mod_right]
    exact Nat.mod_eq_of_lt hi

theorem scanOrder_mem_lt (n s : Nat) (hn : 0 < n) :
    ∀ x ∈ scanOrder n s, x < n := by
  intro x hx
  unfold scanOrder at hx
  rw [List.mem_map] at hx
  obtain ⟨k, _, hk⟩ := hx
  exact hk ▸ Nat.mod_lt _ hn

/-- Claim C8: a date-role cell stays empty with an unchanged rotation
pointer exactly when the eligible list is empty or every eligible
volunteer fails the checks for this date; the step is a total function,
so the outcome is an ordinary value, never an error. -/
theorem c8_unsatisfiable_cell (vols : List String) (p : String → Bool) (ptr : Int) :
    roleStep vols p ptr = (none, ptr) ↔
      (vols = [] ∨ ∀ i, i < vols.length → p (vols.getD i "") = false) := by
  constructor
  · intro h
    by_cases hv : vols = []
    · exact Or.inl hv
    · refine Or.inr (fun i hi => ?_)
      unfold roleStep at h
      cases ha : assignRole vols p ptr with
      | some pair =>
        obtain ⟨n0, i0⟩ := pair
        rw [ha] at h
        simp at h
      | none =>
        have heq := assignRole_eq_find vols p ptr hv
        rw [ha] at heq
        have hfind := Option.map_eq_none'.mp heq.symm
        rw [List.find?_eq_none] at hfind
        have hmem : i ∈ scanOrder vols.length (startIdx vols.length ptr) :=
          mem_scanOrder _ _ _ (startIdx_lt _ _ (by
            rcases Nat.eq_zero_or_pos vols.length with h0 | h0
            · exact absurd (List.length_eq_zero.mp h0) hv
            · exact h0)) hi
        simpa using hfind i hmem
  · intro h
    by_cases hv : vols = []
    · subst hv
      rfl
    · rcases h with h | hall
      · exact absurd h hv
      · unfold roleStep
        rw [assignRole_eq_find vols p ptr hv]
        have hn : 0 < vols.length := by
          rcases Nat.eq_zero_or_pos vols.length with h0 | h0
          · exact absurd (List.length_eq_zero.mp h0) hv
          · exact h0
        have hnone : (scanOrder vols.length (startIdx vols.length ptr)).find?
            (fun i => p (vols.getD i "")) = none := by
          rw [List.find?_eq_none]
          intro x hx
          have hlt := scanOrder_mem_lt _ _ hn x hx
          have h5 := hall x hlt
          simp only [List.getD, List.get?_eq_getElem?] at h5
          simp [h5]
        rw [hnone]
        rfl

/-- Witness for C8 at a concrete input: a predicate rejecting everyone
leaves the cell empty and the pointer where it was. -/
theorem c8_unsatisfiable_cell_witness :
    roleStep ["A"] (fun _ => false) 5 = (none, 5) :=
  (c8_unsatisfiable_cell ["A"] (fun _ => false) 5).mpr (Or.inr (by decide))

theorem scanOrder_zero (n : Nat) : scanOrder n 0 = List.range n := by
  unfold scanOrder
  have h : ∀ k ∈ List.range n, (0 + k) % n = id k := by
    intro k hk
    simp only [id_eq, Nat.zero_add]
    exact Nat.mod_eq_of_lt (List.mem_range.mp hk)
  rw [List.map_congr_left h, List.map_id]

theorem startIdx_neg_one (n : Nat) : startIdx n (-1) = 0 := by
  simp [startIdx]

/-- Claim C9: a run starts with every rotation pointer at -1 and an empty
served-last-date list -- autoPopulateCore builds exactly that state and
reads nothing from any prior period -- so the first date is computed from
that state; a pointer of -1 makes the scan walk the eligible list from
index 0 in natural order; and with an empty served list the
consecutive-service check rejects nobody: the candidate checks degenerate
to the duplicate, spouse and blackout checks. -/
theorem c9_initial_rotation_state :
    (∀ (roles : List RoleSpec) (cm : String → Option String)
        (bl : String → String → Bool) (d : String) (ds : List String),
      (autoPopulateCore roles cm bl (d :: ds)).head? =
        some (dateStepAux cm (bl d) []
          (roles.zip (roles.map (fun _ => (-1 : Int)))) []).1) ∧
    (∀ (vols : List String) (p : String → Bool),
      assignRole vols p (-1) =
        ((List.range vols.length).find? (fun i => p (vols.getD i ""))).map
          (fun i => (vols.getD i "", i))) ∧
    (∀ (isF : Bool) (acc : List String) (cm : String → Option String)
        (bl : String → Bool) (v : String),
      passes isF acc [] cm bl v =
        ((isF || !(acc.contains v)) &&
         (match cm v with
          | some spouse => !(acc.contains spouse)
          | none => true) &&
         !(bl v))) := by
  refine ⟨?_, ?_, ?_⟩
  · intro roles cm bl d ds
    simp only [autoPopulateCore, scheduleRun, List.head?]
  · intro vols p
    by_cases hv : vols = []
    · subst hv
      rfl
    · rw [assignRole_eq_find vols p (-1) hv, startIdx_neg_one, scanOrder_zero]
  · intro isF acc cm bl v
    simp [passes]

/-- Claim C10: the blackout check rejects a candidate exactly when the
volunteer has a blackout row, the date has a blackout column, and the cell
there holds strictly the boolean true; a volunteer missing from the rows,
a date missing from the columns, or any other cell value (an unchecked
box, a string, a number, an empty cell) leaves the candidate available. -/
theorem c10_blackout_strict_true (blackoutData : List (List CellVal))
    (rowMap dateMap : String → Option Nat) (volName dateStr : String) :
    isBlackoutCell blackoutData rowMap dateMap volName dateStr = true ↔
      ∃ ri ci, rowMap volName = some ri ∧ dateMap dateStr = some ci ∧
        (blackoutData.getD ri []).getD ci CellVal.empty = CellVal.bool true := by
  constructor
  · intro h
    unfold isBlackoutCell at h
    split at h
    · rename_i rowIdx colIdx hr2 hd2
      split at h
      · rename_i hcell
        exact ⟨rowIdx, colIdx, hr2, hd2, hcell⟩
      · exact Bool.noConfusion h
    · exact Bool.noConfusion h
  · rintro ⟨ri, ci, h1, h2, h3⟩
    unfold isBlackoutCell
    rw [h1, h2]
    dsimp only
    rw [h3]

/-- The truthy, non-excused test the classifier passes apply before
treating a cell value as a volunteer name (`name && name !== "NA"` in
src/Email.js highlightConflicts). The empty string is the falsy cell. -/
def isName (s : String) : Bool :=
  (s != "") && (s != "NA")

/-- The names one schedule row contributes, as the classifier collects
them: its non-empty, non-NA cell values (the namesNow, namesNext and
rowNames objects of highlightConflicts, kept as a list whose membership is
the object-key test). -/
def rowNames (row : List String) : List String :=
  row.filter isName

/-- The per-row occurrence count of the same-day pass (lines 1036-1044):
only non-empty, non-NA occurrences are counted, and a value that was never
counted (such as "NA" or the empty string) reads back as zero, the way a
missing JavaScript object key behaves under `counts[name] > 1`. -/
def countsVal (row : List String) (name : String) : Nat :=
  (row.filter (fun x => isName x && x == name)).length

/-- Same-day duplicate mark of cell (r, c) (lines 1045-1051): the cell is
truthy and its value is counted more than once in its row. -/
def sameDayDupFlag (values : List (List String)) (r c : Nat) : Bool :=
  let row := values.getD r []
  let name := row.getD c ""
  (name != "") && decide (1 < countsVal row name)

/-- Consecutive-date mark of cell (r, c) (lines 1057-1093): some adjacent
pair of rows rp and rp+1 covers row r, and the cell value is one of the
names collected (non-empty, non-NA) from both rows of that pair. These are
exactly the cells the nested marking loops paint: the loop marks every
occurrence, in both rows of a pair, of every name in the intersection of
the two collected name sets, and a cell value always occurs in its own
row, so a cell is painted precisely when the value is collected from both
rows of a pair containing it. -/
def consecWeekFlag (values : List (List String)) (r c : Nat) : Bool :=
  let v := (values.getD r []).getD c ""
  (List.range (values.length - 1)).any (fun rp =>
    (decide (r = rp) || decide (r = rp + 1)) &&
    (rowNames (values.getD rp [])).contains v &&
    (rowNames (values.getD (rp + 1) [])).contains v)

/-- Couple mark of cell (r, c) (lines 1099-1121): the cell is truthy --
note this pass, unlike the other two, does not exclude the NA sentinel
from being looked up -- and the couples map sends the value to a partner
collected (non-empty, non-NA) in the same row. -/
def coupleFlag (values : List (List String)) (couplesMap : String → Option String)
    (r c : Nat) : Bool :=
  let row := values.getD r []
  let name := row.getD c ""
  (name != "") &&
  (match couplesMap name with
   | some spouse => (rowNames row).contains spouse
   | none => false)

/-- The layered color overwrite (lines 1124-1143): light red for a
same-day duplicate, overwritten by light yellow for a consecutive-week
conflict, overwritten by light blue for a couple conflict; null when
nothing matched. -/
def cellColor (sameDay consecWeek couple : Bool) : Option String :=
  let c0 : Option String := none
  let c1 := if sameDay then some "#FFCCCC" else c0
  let c2 := if consecWeek then some "#FFF2CC" else c1
  let c3 := if couple then some "#CCE5FF" else c2
  c3

/-- The background color highlightConflicts paints cell (r, c). -/
def conflictColor (values : List (List String)) (couplesMap : String → Option String)
    (r c : Nat) : Option String :=
  cellColor (sameDayDupFlag values r c) (consecWeekFlag values r c)
    (coupleFlag values couplesMap r c)

/-- The conflict kinds named by the specification. -/
inductive ConflictKind where
  | none
  | sameDayDuplicate
  | consecutiveWeek
  | coupleConflict
deriving DecidableEq

/-- The single highest-priority kind per cell, written the way the
specification states the precedence rule (CoupleConflict over
ConsecutiveWeek over SameDayDuplicate over None); the refinement target
the overwrite order is compared with. -/
def classifyKind (values : List (List String)) (couplesMap : String → Option String)
    (r c : Nat) : ConflictKind :=
  if coupleFlag values couplesMap r c then ConflictKind.coupleConflict
  else if consecWeekFlag values r c then ConflictKind.consecutiveWeek
  else if sameDayDupFlag values r c then ConflictKind.sameDayDuplicate
  else ConflictKind.none

/-- The color each conflict kind displays as. -/
def colorOfKind : ConflictKind → Option String
  | ConflictKind.none => none
  | ConflictKind.sameDayDuplicate => some "#FFCCCC"
  | ConflictKind.consecutiveWeek => some "#FFF2CC"
  | ConflictKind.coupleConflict => some "#CCE5FF"

/-- Claim C6: for every grid, pairing input and cell, the layered color
overwrite of highlightConflicts reports exactly one conflict kind, the one
selected by the precedence CoupleConflict over ConsecutiveWeek over
SameDayDuplicate over None. -/
theorem c6_conflict_precedence (values : List (List String))
    (couplesMap : String → Option String) (r c : Nat) :
    conflictColor values couplesMap r c =
      colorOfKind (classifyKind values couplesMap r c) := by
  unfold conflictColor classifyKind cellColor
  cases coupleFlag values couplesMap r c <;>
    cases consecWeekFlag values r c <;>
      cases sameDayDupFlag values r c <;> rfl

theorem countsVal_na (row : List String) : countsVal row "NA" = 0 := by
  unfold countsVal
  simp only [List.length_eq_zero, List.filter_eq_nil_iff]
  intro x _
  by_cases hx : x = "NA"
  · subst hx
    decide
  · simp [beq_iff_eq, hx]

theorem rowNames_no_na (row : List String) : ¬ "NA" ∈ rowNames row := by
  intro h
  have h2 := (List.mem_filter.mp h).2
  exact absurd h2 (by decide)

theorem rowNames_contains_na (row : List String) :
    (rowNames row).contains "NA" = false := by
  cases hc : (rowNames row).contains "NA"
  · rfl
  · exact absurd (List.elem_iff.mp hc) (rowNames_no_na row)

theorem sameDayDupFlag_na (values : List (List String)) (r c : Nat)
    (h : (values.getD r []).getD c "" = "NA") : sameDayDupFlag values r c = false := by
  simp only [sameDayDupFlag, h, countsVal_na]
  simp

theorem consecWeekFlag_na (values : List (List String)) (r c : Nat)
    (h : (values.getD r []).getD c "" = "NA") : consecWeekFlag values r c = false := by
  simp only [consecWeekFlag, h]
  simp [rowNames_contains_na, rowNames_no_na]

theorem coupleFlag_na (values : List (List String)) (cm : String → Option String)
    (r c : Nat) (hcm : cm "NA" = none)
    (h : (values.getD r []).getD c "" = "NA") : coupleFlag values cm r c = false := by
  simp only [coupleFlag, h, hcm]
  simp

/-- Claim C7 as amended: the NA sentinel is never counted toward same-day
duplicates and never contributes to the collected name sets (deleting NA
cells from a row changes no count and no collected set, so NA neither
creates conflicts for other cells nor is marked for duplicate or
consecutive-date conflicts itself), and an NA cell is classified None --
provided the pairing input does not itself pair the sentinel "NA" with a
volunteer, the one gap the couple pass leaves open. -/
theorem c7_na_sentinel (values : List (List String))
    (couplesMap : String → Option String) (r c : Nat) :
    (couplesMap "NA" = none → (values.getD r []).getD c "" = "NA" →
      classifyKind values couplesMap r c = ConflictKind.none) ∧
    (∀ (row : List String) (name : String),
      countsVal row name = countsVal (row.filter (fun x => x != "NA")) name) ∧
    (∀ (row : List String),
      rowNames row = rowNames (row.filter (fun x => x != "NA"))) := by
  refine ⟨?_, ?_, ?_⟩
  · intro hcm hcell
    unfold classifyKind
    rw [coupleFlag_na values couplesMap r c hcm hcell,
      consecWeekFlag_na values r c hcell, sameDayDupFlag_na values r c hcell]
    simp
  · intro row name
    unfold countsVal
    congr 1
    rw [List.filter_filter]
    apply List.filter_congr
    intro x _
    by_cases hx : x = "NA"
    · subst hx
      simp [isName]
    · simp [hx]
  · intro row
    unfold rowNames
    rw [List.filter_filter]
    apply List.filter_congr
    intro x _
    by_cases hx : x = "NA"
    · subst hx
      simp [isName]
    · simp [hx]

/-- Witness for C7 at a concrete input: a lone NA cell under a pairing
input that does not mention the sentinel classifies as None. -/
theorem c7_na_sentinel_witness :
    classifyKind [["NA"]] (fun _ => none) 0 0 = ConflictKind.none :=
  (c7_na_sentinel [["NA"]] (fun _ => none) 0 0).1 rfl rfl

/-- Claim C7, counterexample to the claim as stated over every pairing
input: when the pairing input itself maps the sentinel "NA" to a volunteer
(here X) collected on the same date, the couple pass -- which unlike the
other two passes does not exclude "NA" before the lookup -- marks the NA
cell, so the cell classifies as CoupleConflict, not None. -/
theorem c7_na_couple_counterexample :
    classifyKind [["NA", "X"]]
      (fun n => if n = "NA" then some "X" else if n = "X" then some "NA" else none)
      0 0 = ConflictKind.coupleConflict := by
  decide
